/-
  Verification of the trading-bridge subsystem of Neuraluxe-AI
  (src/ai_trading_bridge.py): order factory, risk manager, mock broker,
  position upsert, market-tick fan-out, and the submit/worker order
  lifecycle, shallowly embedded over ℚ with explicit state passing.

  Python floats are modelled as ℚ; `random.random()` draws, clock reads
  and generated uuids are passed in as explicit parameters; a dict-based
  SQLite table is modelled as a list of rows with the same lookup,
  update, delete and insert behaviour as the SQL statements in the
  source.  Exceptions raised by external calls (the broker adapter, bot
  tick handlers) are modelled with `Except`‑style outcome values.
-/
import Mathlib

namespace NeuraTrading

/-- An order record as built by `create_order` (a Python dict).
`meta` keeps only the string entries the bridge itself writes
(`reject_reason`, `broker_error`). -/
structure Order where
  id : String
  user_id : String
  bot_id : String
  symbol : String
  side : String
  qty : ℚ
  price : Option ℚ
  status : String
  created_at : ℤ
  executed_at : Option ℤ
  meta : List (String × String)
deriving Repr, DecidableEq

/-- Python `str.lower()` (the sides used here are ASCII). -/
def pyLower (s : String) : String := String.mk (s.data.map Char.toLower)

/-- Source `create_order`: fresh order with status `"new"`, `executed_at = None`.
The generated id (`make_order_id`) and the clock read are passed in. -/
def create_order (oid : String) (user_id : String) (bot_id : String)
    (symbol : String) (side : String) (qty : ℚ) (price : Option ℚ)
    (now : ℤ) : Order :=
  { id := oid
    user_id := user_id
    bot_id := bot_id
    symbol := symbol
    side := pyLower side
    qty := qty
    price := price
    status := "new"
    created_at := now
    executed_at := none
    meta := [] }

/-- A row of the SQLite `positions` table. -/
structure Position where
  id : String
  user_id : String
  symbol : String
  qty : ℚ
  avg_price : ℚ
  updated_at : ℤ
deriving Repr, DecidableEq

/-- Source `db_insert_order`: `INSERT OR REPLACE` into `orders`, keyed by `id`. -/
def db_insert_order (table : List Order) (o : Order) : List Order :=
  if table.any (fun r => r.id == o.id) then
    table.map (fun r => if r.id == o.id then o else r)
  else
    table ++ [o]

/-- Source `db_upsert_position`: look up the first row for (user_id, symbol); if
present add the signed qty, deleting the row when the new qty is exactly
zero and otherwise updating qty and the cost-basis-weighted average
price; if absent insert a fresh row.  `newId` is the generated
`pos_<uuid>` and `now` the clock read. -/
def db_upsert_position (table : List Position) (symbol : String)
    (user_id : String) (qty : ℚ) (avg_price : ℚ) (newId : String)
    (now : ℤ) : List Position :=
  match table.find? (fun p => p.user_id == user_id && p.symbol == symbol) with
  | some row =>
      let new_qty := row.qty + qty
      if new_qty = 0 then
        table.filter (fun p => !(p.id == row.id))
      else
        let new_avg := (row.avg_price * row.qty + avg_price * qty) / new_qty
        table.map (fun p =>
          if p.id == row.id then
            { p with qty := new_qty, avg_price := new_avg, updated_at := now }
          else p)
  | none =>
      table ++ [{ id := newId, user_id := user_id, symbol := symbol,
                  qty := qty, avg_price := avg_price, updated_at := now }]

/-- Per-user limits held by `RiskManager.user_limits`
(defaults: 50000, 10, 0.1). -/
structure UserLimits where
  max_exposure : ℚ
  max_positions : ℤ
  max_order_size_pct : ℚ
deriving Repr, DecidableEq

/-- The defaultdict value of `RiskManager.user_limits`. -/
def defaultLimits : UserLimits :=
  { max_exposure := 50000, max_positions := 10, max_order_size_pct := 1/10 }

/-- A position dict as returned by `TradingBridge._get_user_positions`
(keys `symbol`, `qty`, `avg_price`). -/
structure PosView where
  symbol : String
  qty : ℚ
  avg_price : ℚ
deriving Repr, DecidableEq

/-- Resolution `order.get("price") or broker.get_market_price(symbol)`: Python `or`
falls through to the market price when the order's price is `None` *or*
equal to `0` (a zero float is falsy). -/
def resolve_price (orderPrice : Option ℚ) (marketPrice : ℚ) : ℚ :=
  match orderPrice with
  | some p => if p = 0 then marketPrice else p
  | none => marketPrice

/-- Existing-exposure estimate in `assess_order`:
`exp += abs(p.qty) * p.avg_price` over current positions. -/
def exposure (positions : List PosView) : ℚ :=
  positions.foldl (fun a p => a + |p.qty| * p.avg_price) 0

/-- Held symbols `p["symbol"] for p in current_positions` — the distinct
held symbols. -/
def heldSymbols (positions : List PosView) : List String :=
  (positions.map (fun p => p.symbol)).dedup

/-- Source `RiskManager.assess_order`: returns (allow, reason).  The broker's
market-price lookup is passed in as `marketPrice`.  Note the second
rejection reason is an f-string embedding the per-order cap. -/
def assess_order (limits : UserLimits) (order : Order)
    (current_positions : List PosView) (marketPrice : ℚ) : Bool × String :=
  let price := resolve_price order.price marketPrice
  let notional := |order.qty| * price
  if notional ≤ 0 then
    (false, "invalid_order_notional")
  else
    let max_per_order := limits.max_exposure * limits.max_order_size_pct
    if max_per_order < notional then
      (false, "order_too_large_per_order_limit (>" ++ toString max_per_order ++ ")")
    else
      let exp := exposure current_positions
      if limits.max_exposure < exp + notional then
        (false, "would_exceed_max_exposure")
      else
        let symbols := heldSymbols current_positions
        if order.symbol ∉ symbols ∧ limits.max_positions ≤ (symbols.length : ℤ) then
          (false, "max_positions_reached")
        else
          (true, "ok")

/-- The claim's reading of "resolved price": the order's own price when
set, otherwise the broker's market price (spec wording, to be compared
with `resolve_price` which follows the source's truthiness test). -/
def spec_resolved_price (orderPrice : Option ℚ) (marketPrice : ℚ) : ℚ :=
  orderPrice.getD marketPrice

/-- Python `round(x, 6)`.  (Ties are rounded half-to-even on binary
floats; no property here touches a tie, so Mathlib's `round` is used.) -/
def pyRound6 (x : ℚ) : ℚ :=
  (round (x * 1000000) : ℤ) / 1000000

/-- Source `MockBroker.balances`: per-user USD balance, a defaultdict with
default 100000, modelled as a total map. -/
def initialBalances : String → ℚ := fun _ => 100000

/-- A broker execution result dict: `{ok, exec_price, filled_qty}` on
success, `{ok: false, error}` on failure. -/
structure ExecResult where
  ok : Bool
  error : Option String
  exec_price : Option ℚ
  filled_qty : Option ℚ
deriving Repr, DecidableEq

/-- The execution price computed inside `MockBroker.execute_order`:
the order's price if not `None` (an explicit `is None` test here, not
truthiness), else the market price, perturbed by synthetic slippage
`0.0005 * price * (random.random() - 0.5)` and rounded to 6 places. -/
def mock_exec_price (order : Order) (marketPrice : ℚ) (r : ℚ) : ℚ :=
  let price := match order.price with
    | some p => p
    | none => marketPrice
  let slippage := (5 / 10000) * price * (r - 1 / 2)
  pyRound6 (price + slippage)

/-- Source `MockBroker.execute_order`.  `marketPrice` is the value
`self.get_market_price(symbol)` would return and `r` the
`random.random()` draw.  Buys are rejected when the USD balance is
below the cost; anything that is not a buy credits the balance. -/
def mock_execute_order (balances : String → ℚ) (order : Order)
    (marketPrice : ℚ) (r : ℚ) : ExecResult × (String → ℚ) :=
  let exec_price := mock_exec_price order marketPrice r
  let cost := exec_price * order.qty
  if pyLower order.side == "buy" then
    if balances order.user_id < cost then
      ({ ok := false, error := some "insufficient_funds",
         exec_price := none, filled_qty := none }, balances)
    else
      ({ ok := true, error := none, exec_price := some exec_price,
         filled_qty := some order.qty },
       Function.update balances order.user_id (balances order.user_id - cost))
  else
    ({ ok := true, error := none, exec_price := some exec_price,
       filled_qty := some order.qty },
     Function.update balances order.user_id (balances order.user_id + cost))

/-- A market tick `{symbol, price, ts}`. -/
structure MarketTick where
  symbol : String
  price : ℚ
  ts : ℤ
deriving Repr, DecidableEq

/-- A registered bot, as seen by the tick fan-out: its id and its
`handle_market_tick` behaviour, which may raise (`.error`). -/
structure Bot where
  bot_id : String
  handler : MarketTick → Except String Unit

/-- The fan-out loop of `update_market_price`: call every registered
bot's `handle_market_tick` inside a per-bot try/except, logging (and
swallowing) exceptions.  Returns, per bot in registration order, the
bot id and the logged exception, if any. -/
def notify_bots (bots : List Bot) (tick : MarketTick) :
    List (String × Option String) :=
  bots.map (fun b =>
    match b.handler tick with
    | .ok _ => (b.bot_id, none)
    | .error e => (b.bot_id, some e))

/-- Source `TradingBridge.update_market_price`: update the shared cache entry
for the symbol, then fan the tick out to every registered bot.  Returns
the new cache and the per-bot notification log. -/
def update_market_price (cache : List (String × ℚ × ℤ)) (bots : List Bot)
    (symbol : String) (price : ℚ) (ts : ℤ) :
    (List (String × ℚ × ℤ)) × List (String × Option String) :=
  let cache' :=
    if cache.any (fun e => e.1 == symbol) then
      cache.map (fun e => if e.1 == symbol then (symbol, price, ts) else e)
    else
      cache ++ [(symbol, price, ts)]
  (cache', notify_bots bots { symbol := symbol, price := price, ts := ts })

/-- The bridge-owned mutable state touched by the order lifecycle:
the market cache, the three SQLite tables (orders, positions, audit —
audit kept as (level, message) pairs), the emitted events (name, tag)
and the in-process FIFO `orders_queue`. -/
structure BridgeState where
  marketCache : List (String × ℚ × ℤ)
  ordersTable : List Order
  positionsTable : List Position
  auditLog : List (String × String)
  events : List (String × String)
  ordersQueue : List Order
deriving Repr, DecidableEq

/-- Source `TradingBridge.get_market_price`: cache first, broker otherwise. -/
def bridge_get_market_price (st : BridgeState) (brokerPrice : String → ℚ)
    (symbol : String) : ℚ :=
  match st.marketCache.find? (fun e => e.1 == symbol) with
  | some e => e.2.1
  | none => brokerPrice symbol

/-- Source `TradingBridge._get_user_positions`: the user's rows of the
positions table, as (symbol, qty, avg_price) dicts. -/
def get_user_positions (st : BridgeState) (user : String) : List PosView :=
  (st.positionsTable.filter (fun p => p.user_id == user)).map
    (fun p => { symbol := p.symbol, qty := p.qty, avg_price := p.avg_price })

/-- The dict returned by `submit_order`: `{ok: false, reason}`,
`{ok: true, exec_price, paper: true}` or `{ok: true, status: "queued"}`. -/
structure SubmitResult where
  ok : Bool
  reason : Option String
  exec_price : Option ℚ
  paper : Bool
  status : Option String
deriving Repr, DecidableEq

/-- The environment a `submit_order` call reads: the broker's price
function, the `random.random()` draw for paper noise, the clock, and
the uuid generated for a fresh position row. -/
structure SubmitEnv where
  brokerPrice : String → ℚ
  rand : ℚ
  now : ℤ
  posId : String

/-- Result of `submit_order`: the returned dict, the order dict as
mutated in place, and the bridge state afterwards. -/
structure SubmitOutcome where
  result : SubmitResult
  order : Order
  state : BridgeState

/-- Source `TradingBridge.submit_order(order, mode)`.  Risk-assess against the
user's current positions; on rejection persist with status
`"rejected"`; otherwise persist (status unchanged) and either fill
synchronously (paper) or push onto the FIFO queue (live). -/
def submit_order (limits : UserLimits) (env : SubmitEnv)
    (st : BridgeState) (order : Order) (mode : String) : SubmitOutcome :=
  let positions := get_user_positions st order.user_id
  let ar := assess_order limits order positions (env.brokerPrice order.symbol)
  if ar.1 = false then
    let o := { order with
      status := "rejected",
      meta := order.meta ++ [("reject_reason", ar.2)] }
    { result := { ok := false, reason := some ar.2, exec_price := none,
                  paper := false, status := none }
      order := o
      state := { st with
        auditLog := st.auditLog ++
          [("warning", "Order rejected by risk manager: " ++ ar.2)],
        ordersTable := db_insert_order st.ordersTable o } }
  else
    let st1 := { st with ordersTable := db_insert_order st.ordersTable order }
    if mode = "paper" then
      let price := resolve_price order.price
        (bridge_get_market_price st1 env.brokerPrice order.symbol)
      let exec_price := pyRound6 (price * (1 + (env.rand - 1 / 2) * (1 / 1000)))
      let o := { order with executed_at := some env.now, status := "filled" }
      { result := { ok := true, reason := none, exec_price := some exec_price,
                    paper := true, status := none }
        order := o
        state := { st1 with
          ordersTable := db_insert_order st1.ordersTable o,
          positionsTable := db_upsert_position st1.positionsTable o.symbol
            o.user_id (if o.side = "buy" then o.qty else -o.qty)
            exec_price env.posId env.now,
          auditLog := st1.auditLog ++ [("info", "Paper trade executed")],
          events := st1.events ++ [("order_filled", o.id)] } }
    else
      { result := { ok := true, reason := none, exec_price := none,
                    paper := false, status := some "queued" }
        order := order
        state := { st1 with ordersQueue := st1.ordersQueue ++ [order] } }

/-- What `self.broker.execute_order(order)` does on a given call:
return a result dict, or raise. -/
inductive BrokerOutcome where
  | result (res : ExecResult)
  | raises (exc : String)

/-- Source `TradingBridge._process_order_worker(order)`.  A returned
`{ok: false}` marks the order `failed` (persisting the broker error);
a returned `{ok: true}` marks it `filled`, persists, and upserts the
position; a raised exception — including an ok result that lacks
`exec_price`, since `float(res["exec_price"])` then raises `KeyError` —
lands in the `except` branch, which audits and emits `order_failed`
but leaves the order dict itself untouched.  Returns the order as left
by the call and the new state. -/
def process_order_worker (st : BridgeState) (order : Order)
    (outcome : BrokerOutcome) (now : ℤ) (posId : String) :
    Order × BridgeState :=
  match outcome with
  | .raises exc =>
      (order,
       { st with
         auditLog := st.auditLog ++ [("error", "Order processing exception")],
         events := st.events ++ [("order_failed", exc)] })
  | .result res =>
      if res.ok = false then
        let o := { order with
          status := "failed",
          meta := order.meta ++ [("broker_error", res.error.getD "None")] }
        (o,
         { st with
           ordersTable := db_insert_order st.ordersTable o,
           auditLog := st.auditLog ++ [("error", "Broker execute failed")],
           events := st.events ++ [("order_failed", res.error.getD "None")] })
      else
        match res.exec_price with
        | none =>
            (order,
             { st with
               auditLog := st.auditLog ++
                 [("error", "Order processing exception")],
               events := st.events ++ [("order_failed", "KeyError: exec_price")] })
        | some exec_price =>
            let o := { order with executed_at := some now, status := "filled" }
            (o,
             { st with
               ordersTable := db_insert_order st.ordersTable o,
               positionsTable := db_upsert_position st.positionsTable o.symbol
                 o.user_id (if o.side = "buy" then o.qty else -o.qty)
                 exec_price posId now,
               auditLog := st.auditLog ++ [("info", "Order executed")],
               events := st.events ++ [("order_filled", o.id)] })

/-- The invariant of claim C7: `executed_at` is set iff status is
`"filled"`. -/
def OrderInv (o : Order) : Prop :=
  o.executed_at.isSome = true ↔ o.status = "filled"

instance (o : Order) : Decidable (OrderInv o) := by
  unfold OrderInv; infer_instance

/-! Concrete fixtures used by witnesses and counterexamples. -/

/-- A buy of 1 BTCUSD at price 10 (well inside the default limits). -/
def orderW : Order := create_order "ow" "u1" "b1" "BTCUSD" "buy" 1 (some 10) 0

/-- An order whose price field is the float 0 — set, but falsy. -/
def orderZeroPrice : Order :=
  create_order "oz" "u1" "b1" "BTCUSD" "buy" 1 (some 0) 0

/-- An order with qty 0. -/
def orderQtyZero : Order :=
  create_order "on" "u1" "b1" "BTCUSD" "buy" 0 (some 10) 0

/-- A buy whose notional 6000 exceeds the default per-order cap
50000 × 0.1 = 5000. -/
def orderTooLarge : Order :=
  create_order "og" "u1" "b1" "BTCUSD" "buy" 1 (some 6000) 0

/-- A sell of 3 units at price 100. -/
def orderSellW : Order :=
  create_order "os" "u1" "b1" "ETHUSD" "sell" 3 (some 100) 0

/-- A buy of 2000 units at price 100 — cost 200000, above the mock
broker's default 100000 USD balance. -/
def orderBigBuyW : Order :=
  create_order "ob" "u1" "b1" "ETHUSD" "buy" 2000 (some 100) 0

/-- A bridge with empty tables, cache, queue and logs. -/
def emptyState : BridgeState :=
  { marketCache := [], ordersTable := [], positionsTable := [],
    auditLog := [], events := [], ordersQueue := [] }

/-- A submit environment: the broker quotes 10 for every symbol. -/
def envW : SubmitEnv :=
  { brokerPrice := fun _ => 10, rand := 1 / 2, now := 5, posId := "p1" }

/-- A bot whose tick handler succeeds. -/
def botOkW : Bot := { bot_id := "bot1", handler := fun _ => .ok () }

/-- A bot whose tick handler raises. -/
def botErrW : Bot := { bot_id := "bot2", handler := fun _ => .error "boom" }

/-! The claims. -/

/-- C2: whenever an order's notional (|qty| × resolved price) is
positive, at most `max_exposure × max_order_size_pct`, the existing
exposure plus the notional is at most `max_exposure`, and the order's
symbol is already held or fewer than `max_positions` distinct symbols
are held, `assess_order` returns `(True, "ok")`. -/
theorem assess_order_accepts (limits : UserLimits) (order : Order)
    (positions : List PosView) (marketPrice : ℚ)
    (hpos : 0 < |order.qty| * resolve_price order.price marketPrice)
    (hcap : |order.qty| * resolve_price order.price marketPrice ≤
      limits.max_exposure * limits.max_order_size_pct)
    (hexp : exposure positions +
      |order.qty| * resolve_price order.price marketPrice ≤
      limits.max_exposure)
    (hsym : order.symbol ∈ heldSymbols positions ∨
      ((heldSymbols positions).length : ℤ) < limits.max_positions) :
    assess_order limits order positions marketPrice = (true, "ok") := by
  simp only [assess_order]
  rw [if_neg (not_le.mpr hpos), if_neg (not_lt.mpr hcap),
    if_neg (not_lt.mpr hexp), if_neg]
  rintro ⟨hns, hge⟩
  rcases hsym with h | h
  · exact hns h
  · exact absurd hge (not_le.mpr h)

/-- C2 witness: the concrete buy of 1 BTCUSD at 10 against no
positions and default limits is allowed. -/
theorem assess_order_accepts_witness :
    assess_order defaultLimits orderW [] 10 = (true, "ok") :=
  assess_order_accepts defaultLimits orderW [] 10
    (by norm_num [orderW, create_order, resolve_price])
    (by norm_num [orderW, create_order, resolve_price, defaultLimits])
    (by norm_num [orderW, create_order, resolve_price, defaultLimits, exposure])
    (Or.inr (by norm_num [heldSymbols, defaultLimits]))

/-- C3 counterexample: the order `orderZeroPrice` has its price field
set to 0 — so the claim's resolved price is 0 ≤ 0 — yet `assess_order`
does not return `(False, "invalid_order_notional")`: Python's
`order.get("price") or broker.get_market_price(...)` treats the zero
price as unset and falls through to the broker's positive quote. -/
theorem assess_order_zero_price_cex :
    spec_resolved_price orderZeroPrice.price 10 ≤ 0 ∧
    assess_order defaultLimits orderZeroPrice [] 10 ≠
      (false, "invalid_order_notional") := by
  constructor
  · norm_num [spec_resolved_price, orderZeroPrice, create_order]
  · have h : assess_order defaultLimits orderZeroPrice [] 10 = (true, "ok") := by
      norm_num [assess_order, orderZeroPrice, create_order, resolve_price,
        defaultLimits, exposure, heldSymbols]
    rw [h]
    simp

/-- C3 (amended): for every order with qty 0, or whose resolved price —
the order's own price when set *and nonzero* (a zero price is falsy and
falls through to the broker quote), otherwise the broker's market
price — is ≤ 0, `assess_order` returns `(False,
"invalid_order_notional")`. -/
theorem assess_order_invalid_notional (limits : UserLimits) (order : Order)
    (positions : List PosView) (marketPrice : ℚ)
    (h : order.qty = 0 ∨ resolve_price order.price marketPrice ≤ 0) :
    assess_order limits order positions marketPrice =
      (false, "invalid_order_notional") := by
  have hn : |order.qty| * resolve_price order.price marketPrice ≤ 0 := by
    rcases h with h | h
    · simp [h]
    · exact mul_nonpos_iff.mpr (Or.inl ⟨abs_nonneg _, h⟩)
  simp only [assess_order]
  rw [if_pos hn]

/-- C3 witness: a qty-0 order is rejected as `invalid_order_notional`. -/
theorem assess_order_invalid_notional_witness :
    assess_order defaultLimits orderQtyZero [] 10 =
      (false, "invalid_order_notional") :=
  assess_order_invalid_notional defaultLimits orderQtyZero [] 10
    (Or.inl rfl)

/-- Helper: `assess_order` returns one of exactly five results; the per-order
cap rejection embeds the cap value in the reason string. -/
theorem assess_order_cases (limits : UserLimits) (order : Order)
    (positions : List PosView) (marketPrice : ℚ) :
    assess_order limits order positions marketPrice = (true, "ok") ∨
    assess_order limits order positions marketPrice =
      (false, "invalid_order_notional") ∨
    assess_order limits order positions marketPrice =
      (false, "order_too_large_per_order_limit (>" ++
        toString (limits.max_exposure * limits.max_order_size_pct) ++ ")") ∨
    assess_order limits order positions marketPrice =
      (false, "would_exceed_max_exposure") ∨
    assess_order limits order positions marketPrice =
      (false, "max_positions_reached") := by
  simp only [assess_order]
  split
  · right; left; rfl
  · split
    · right; right; left; rfl
    · split
      · right; right; right; left; rfl
      · split
        · right; right; right; right; rfl
        · left; rfl

/-- C6 counterexample: the order whose notional 6000 exceeds the
default per-order cap 5000 is rejected, but the reason is the f-string
`"order_too_large_per_order_limit (>5000)"` — not the fixed-vocabulary
string `"order_too_large_per_order_limit"` and not any of the four
fixed strings. -/
theorem assess_reason_vocab_cex :
    (assess_order defaultLimits orderTooLarge [] 10).1 = false ∧
    (assess_order defaultLimits orderTooLarge [] 10).2 ∉
      (["invalid_order_notional", "order_too_large_per_order_limit",
        "would_exceed_max_exposure", "max_positions_reached"] :
        List String) := by
  have h : assess_order defaultLimits orderTooLarge [] 10 =
      (false, "order_too_large_per_order_limit (>" ++
        toString (5000 : ℚ) ++ ")") := by
    norm_num [assess_order, orderTooLarge, create_order, resolve_price,
      defaultLimits, exposure, heldSymbols]
  rw [h]
  exact ⟨rfl, by decide⟩

/-- C6 (amended): whenever `assess_order` rejects an order, the reason
is `"invalid_order_notional"`, `"would_exceed_max_exposure"`,
`"max_positions_reached"`, or — for the per-order cap — the string
`"order_too_large_per_order_limit (>" ++ cap ++ ")"`, which begins with
`"order_too_large_per_order_limit"` but embeds the cap value rather
than being exactly the fixed-vocabulary string. -/
theorem assess_reason_vocab (limits : UserLimits) (order : Order)
    (positions : List PosView) (marketPrice : ℚ)
    (h : (assess_order limits order positions marketPrice).1 = false) :
    (assess_order limits order positions marketPrice).2 =
      "invalid_order_notional" ∨
    (assess_order limits order positions marketPrice).2 =
      "order_too_large_per_order_limit (>" ++
        toString (limits.max_exposure * limits.max_order_size_pct) ++ ")" ∨
    (assess_order limits order positions marketPrice).2 =
      "would_exceed_max_exposure" ∨
    (assess_order limits order positions marketPrice).2 =
      "max_positions_reached" := by
  rcases assess_order_cases limits order positions marketPrice with
    h0 | h0 | h0 | h0 | h0
  · rw [h0] at h; exact absurd h (by decide)
  · exact Or.inl (by rw [h0])
  · exact Or.inr (Or.inl (by rw [h0]))
  · exact Or.inr (Or.inr (Or.inl (by rw [h0])))
  · exact Or.inr (Or.inr (Or.inr (by rw [h0])))

/-- C6 witness: the rejected over-cap order's reason falls in the
amended vocabulary. -/
theorem assess_reason_vocab_witness :
    (assess_order defaultLimits orderTooLarge [] 10).2 =
      "invalid_order_notional" ∨
    (assess_order defaultLimits orderTooLarge [] 10).2 =
      "order_too_large_per_order_limit (>" ++
        toString (defaultLimits.max_exposure *
          defaultLimits.max_order_size_pct) ++ ")" ∨
    (assess_order defaultLimits orderTooLarge [] 10).2 =
      "would_exceed_max_exposure" ∨
    (assess_order defaultLimits orderTooLarge [] 10).2 =
      "max_positions_reached" :=
  assess_reason_vocab defaultLimits orderTooLarge [] 10
    (by norm_num [assess_order, orderTooLarge, create_order, resolve_price,
      defaultLimits, exposure, heldSymbols])

/-- C8: starting from a positions table with no row for a given
(user, symbol) pair, applying `db_upsert_position` with signed qty
q ≠ 0 at price p and then again with −q at the same price leaves the
table with no row for that pair: the first call inserts a fresh row,
the second nets its qty to exactly zero and deletes it. -/
theorem upsert_net_zero (T : List Position) (symbol user_id : String)
    (q p : ℚ) (id1 id2 : String) (t1 t2 : ℤ) (hq : q ≠ 0)
    (hT : ∀ r ∈ T, ¬(r.user_id = user_id ∧ r.symbol = symbol)) :
    ∀ r ∈ db_upsert_position
        (db_upsert_position T symbol user_id q p id1 t1)
        symbol user_id (-q) p id2 t2,
      ¬(r.user_id = user_id ∧ r.symbol = symbol) := by
  have hfind :
      T.find? (fun r => r.user_id == user_id && r.symbol == symbol) = none := by
    rw [List.find?_eq_none]
    intro r hr
    simpa [Bool.and_eq_true] using hT r hr
  set row1 : Position := Position.mk id1 user_id symbol q p t1 with hrow1
  have h1 : db_upsert_position T symbol user_id q p id1 t1 = T ++ [row1] := by
    simp [db_upsert_position, hfind, hrow1]
  have hfind2 : (T ++ [row1]).find?
      (fun r => r.user_id == user_id && r.symbol == symbol) = some row1 := by
    rw [List.find?_append, hfind]
    simp [hrow1]
  have h2 : db_upsert_position (T ++ [row1]) symbol user_id (-q) p id2 t2 =
      (T ++ [row1]).filter (fun r => !(r.id == row1.id)) := by
    simp only [db_upsert_position, hfind2]
    rw [if_pos (by ring)]
  intro r hr
  rw [h1, h2] at hr
  have hkeep := List.of_mem_filter hr
  rcases List.mem_append.mp (List.mem_of_mem_filter hr) with hrT | hrRow
  · exact hT r hrT
  · have hre : r = row1 := by simpa using hrRow
    rw [hre] at hkeep
    simp at hkeep

/-- C8 witness: buy 2 then sell 2 of BTCUSD at 100 for user u1,
starting from an empty table, leaves no (u1, BTCUSD) row. -/
theorem upsert_net_zero_witness :
    (db_upsert_position
        (db_upsert_position [] "BTCUSD" "u1" 2 100 "p1" 0)
        "BTCUSD" "u1" (-2) 100 "p2" 1).all
      (fun r => !(r.user_id == "u1" && r.symbol == "BTCUSD")) = true := by
  have h := upsert_net_zero [] "BTCUSD" "u1" 2 100 "p1" "p2" 0 1
    (by norm_num) (by intro r hr; cases hr)
  rw [List.all_eq_true]
  intro r hr
  rcases not_and_or.mp (h r hr) with hx | hx
  · simp [beq_eq_false_iff_ne.mpr hx]
  · simp [beq_eq_false_iff_ne.mpr hx]

/-- C9: `update_market_price` with N registered bots invokes every
bot's `handle_market_tick` once with the tick, in registration order,
regardless of which handlers raise — the per-bot entries of the
notification log are exactly the registered bots — and a raising
handler's exception is caught and recorded while every other bot is
still notified. -/
theorem update_market_price_notifies_all (cache : List (String × ℚ × ℤ))
    (bots : List Bot) (symbol : String) (price : ℚ) (ts : ℤ) :
    ((update_market_price cache bots symbol price ts).2.map Prod.fst =
      bots.map Bot.bot_id) ∧
    (∀ b ∈ bots, ∀ e,
      b.handler { symbol := symbol, price := price, ts := ts } = .error e →
      (b.bot_id, some e) ∈
        (update_market_price cache bots symbol price ts).2) := by
  constructor
  · show (notify_bots bots _).map Prod.fst = _
    simp only [notify_bots, List.map_map]
    apply List.map_congr_left
    intro b _
    cases hb : b.handler { symbol := symbol, price := price, ts := ts } <;>
      simp [Function.comp, hb]
  · intro b hb e he
    show (b.bot_id, some e) ∈ notify_bots bots _
    simp only [notify_bots]
    exact List.mem_map.mpr ⟨b, hb, by rw [he]⟩

/-- C9 witness: with a raising first bot and a healthy second bot, both
appear in the notification log, and the first bot's exception is
recorded next to its id. -/
theorem update_market_price_notifies_all_witness :
    ((update_market_price [] [botErrW, botOkW] "BTCUSD" 10 1).2.map
        Prod.fst = [botErrW.bot_id, botOkW.bot_id]) ∧
    (botErrW.bot_id, some "boom") ∈
      (update_market_price [] [botErrW, botOkW] "BTCUSD" 10 1).2 :=
  ⟨(update_market_price_notifies_all [] [botErrW, botOkW] "BTCUSD" 10 1).1,
   (update_market_price_notifies_all [] [botErrW, botOkW] "BTCUSD" 10 1).2
     botErrW (List.mem_cons_self _ _) "boom" rfl⟩

/-- C10: `MockBroker.execute_order` never rejects a sell — it returns
ok and credits the user's USD balance by exec_price × qty regardless
of holdings — while a buy whose cost exceeds the balance is rejected
with `insufficient_funds` and leaves the balance unchanged. -/
theorem mock_execute_order_sides (balances : String → ℚ) (order : Order)
    (marketPrice r : ℚ) :
    (order.side = "sell" →
      (mock_execute_order balances order marketPrice r).1.ok = true ∧
      (mock_execute_order balances order marketPrice r).2 order.user_id =
        balances order.user_id +
          mock_exec_price order marketPrice r * order.qty) ∧
    (order.side = "buy" →
      balances order.user_id <
        mock_exec_price order marketPrice r * order.qty →
      (mock_execute_order balances order marketPrice r).1 =
        ExecResult.mk false (some "insufficient_funds") none none ∧
      (mock_execute_order balances order marketPrice r).2 = balances) := by
  constructor
  · intro hside
    have hl : (pyLower order.side == "buy") = false := by
      rw [hside]; decide
    constructor
    · simp [mock_execute_order, hl]
    · simp only [mock_execute_order, hl, Bool.false_eq_true, if_false]
      rw [Function.update_same]
  · intro hside hlt
    have hl : (pyLower order.side == "buy") = true := by
      rw [hside]; decide
    simp only [mock_execute_order, hl, if_true]
    rw [if_pos hlt]
    exact ⟨rfl, rfl⟩

/-- C10 witness: a sell of 3 at 100 credits the default balance with
300; a buy of 2000 at 100 (cost 200000 > 100000) is rejected with
`insufficient_funds`, balance unchanged. -/
theorem mock_execute_order_sides_witness :
    ((mock_execute_order initialBalances orderSellW 10 (1 / 2)).1.ok = true ∧
     (mock_execute_order initialBalances orderSellW 10 (1 / 2)).2
         orderSellW.user_id =
       initialBalances orderSellW.user_id +
         mock_exec_price orderSellW 10 (1 / 2) * orderSellW.qty) ∧
    ((mock_execute_order initialBalances orderBigBuyW 10 (1 / 2)).1 =
       ExecResult.mk false (some "insufficient_funds") none none ∧
     (mock_execute_order initialBalances orderBigBuyW 10 (1 / 2)).2 =
       initialBalances) :=
  ⟨(mock_execute_order_sides initialBalances orderSellW 10 (1 / 2)).1 rfl,
   (mock_execute_order_sides initialBalances orderBigBuyW 10 (1 / 2)).2 rfl
     (by norm_num [initialBalances, mock_exec_price, pyRound6, orderBigBuyW,
       create_order, round_eq])⟩

/-- C5: for every allowed order, paper-mode `submit_order` leaves the
worker queue untouched, synchronously marks the order `filled` with
`executed_at` set, upserts the position at the computed execution
price, emits `order_filled`, and returns ok with `exec_price` set and
`paper` true. -/
theorem submit_order_paper (limits : UserLimits) (env : SubmitEnv)
    (st : BridgeState) (order : Order)
    (hallow : (assess_order limits order
      (get_user_positions st order.user_id)
      (env.brokerPrice order.symbol)).1 = true) :
    (submit_order limits env st order "paper").state.ordersQueue =
      st.ordersQueue ∧
    (submit_order limits env st order "paper").result.ok = true ∧
    (submit_order limits env st order "paper").result.paper = true ∧
    (∃ ep, (submit_order limits env st order "paper").result.exec_price =
        some ep ∧
      (submit_order limits env st order "paper").state.positionsTable =
        db_upsert_position st.positionsTable order.symbol order.user_id
          (if order.side = "buy" then order.qty else -order.qty) ep
          env.posId env.now) ∧
    (submit_order limits env st order "paper").order.status = "filled" ∧
    (submit_order limits env st order "paper").order.executed_at =
      some env.now ∧
    ("order_filled", order.id) ∈
      (submit_order limits env st order "paper").state.events := by
  have hfalse : ¬((assess_order limits order
      (get_user_positions st order.user_id)
      (env.brokerPrice order.symbol)).1 = false) := by
    rw [hallow]; decide
  simp only [submit_order]
  rw [if_neg hfalse, if_pos trivial]
  refine ⟨rfl, rfl, rfl, ⟨_, rfl, rfl⟩, rfl, rfl, ?_⟩
  exact List.mem_append_right _ (List.mem_singleton_self _)

/-- C5 witness: the allowed paper buy of 1 BTCUSD at 10 against the
empty bridge. -/
theorem submit_order_paper_witness :
    (submit_order defaultLimits envW emptyState orderW "paper").state.ordersQueue =
      emptyState.ordersQueue ∧
    (submit_order defaultLimits envW emptyState orderW "paper").result.ok = true ∧
    (submit_order defaultLimits envW emptyState orderW "paper").result.paper = true ∧
    (∃ ep, (submit_order defaultLimits envW emptyState orderW "paper").result.exec_price =
        some ep ∧
      (submit_order defaultLimits envW emptyState orderW "paper").state.positionsTable =
        db_upsert_position emptyState.positionsTable orderW.symbol orderW.user_id
          (if orderW.side = "buy" then orderW.qty else -orderW.qty) ep
          envW.posId envW.now) ∧
    (submit_order defaultLimits envW emptyState orderW "paper").order.status = "filled" ∧
    (submit_order defaultLimits envW emptyState orderW "paper").order.executed_at =
      some envW.now ∧
    ("order_filled", orderW.id) ∈
      (submit_order defaultLimits envW emptyState orderW "paper").state.events :=
  submit_order_paper defaultLimits envW emptyState orderW
    (by norm_num [assess_order, get_user_positions, emptyState, envW, orderW,
      create_order, resolve_price, defaultLimits, exposure, heldSymbols])

/-- C4 counterexample: the allowed live buy of 1 BTCUSD at 10 is
persisted with status `"new"` — not `"queued"` — even though the
returned dict says `status: "queued"`; `submit_order` never writes a
`"queued"` status into the record. -/
theorem submit_live_persists_new_cex :
    (submit_order defaultLimits envW emptyState orderW "live").state.ordersTable.map
        Order.status = ["new"] ∧
    (submit_order defaultLimits envW emptyState orderW "live").result.status =
      some "queued" ∧
    ("new" : String) ≠ "queued" := by
  have hfalse : ¬((assess_order defaultLimits orderW
      (get_user_positions emptyState orderW.user_id)
      (envW.brokerPrice orderW.symbol)).1 = false) := by
    have hallow : (assess_order defaultLimits orderW
        (get_user_positions emptyState orderW.user_id)
        (envW.brokerPrice orderW.symbol)).1 = true := by
      norm_num [assess_order, get_user_positions, emptyState, envW, orderW,
        create_order, resolve_price, defaultLimits, exposure, heldSymbols]
    rw [hallow]; decide
  refine ⟨?_, ?_, by decide⟩
  · simp only [submit_order]
    rw [if_neg hfalse, if_neg (by decide : ¬("live" = "paper"))]
    simp [db_insert_order, emptyState, orderW, create_order]
  · simp only [submit_order]
    rw [if_neg hfalse, if_neg (by decide : ¬("live" = "paper"))]

/-- C4 (amended): for every allowed order submitted with mode "live",
`submit_order` persists the order with its status unchanged (still
`"new"` for a fresh order), pushes it onto the in-process FIFO queue,
and returns `{ok: true, status: "queued"}`; the `"queued"` state exists
only in the return value, so a stored record moves
new → (rejected | filled | failed). -/
theorem submit_order_live (limits : UserLimits) (env : SubmitEnv)
    (st : BridgeState) (order : Order)
    (hallow : (assess_order limits order
      (get_user_positions st order.user_id)
      (env.brokerPrice order.symbol)).1 = true) :
    (submit_order limits env st order "live").state.ordersTable =
      db_insert_order st.ordersTable order ∧
    (submit_order limits env st order "live").order = order ∧
    (submit_order limits env st order "live").state.ordersQueue =
      st.ordersQueue ++ [order] ∧
    (submit_order limits env st order "live").result =
      SubmitResult.mk true none none false (some "queued") := by
  simp only [submit_order]
  rw [if_neg (by rw [hallow]; decide),
    if_neg (by decide : ¬("live" = "paper"))]
  exact ⟨rfl, rfl, rfl, rfl⟩

/-- C4 witness: the live buy of 1 BTCUSD at 10 against the empty
bridge is persisted as-is, queued, and acknowledged as queued. -/
theorem submit_order_live_witness :
    (submit_order defaultLimits envW emptyState orderW "live").state.ordersTable =
      db_insert_order emptyState.ordersTable orderW ∧
    (submit_order defaultLimits envW emptyState orderW "live").order = orderW ∧
    (submit_order defaultLimits envW emptyState orderW "live").state.ordersQueue =
      emptyState.ordersQueue ++ [orderW] ∧
    (submit_order defaultLimits envW emptyState orderW "live").result =
      SubmitResult.mk true none none false (some "queued") :=
  submit_order_live defaultLimits envW emptyState orderW
    (by norm_num [assess_order, get_user_positions, emptyState, envW, orderW,
      create_order, resolve_price, defaultLimits, exposure, heldSymbols])

/-- Helper: `executed_at = None` and a non-filled status give the invariant. -/
theorem orderInv_of_none_ne (o : Order) (h1 : o.executed_at = none)
    (h2 : o.status ≠ "filled") : OrderInv o := by
  unfold OrderInv
  rw [h1]
  simp [h2]

/-- A set `executed_at` and status `"filled"` give the invariant. -/
theorem orderInv_some_filled (o : Order) (t : ℤ)
    (h1 : o.executed_at = some t) (h2 : o.status = "filled") : OrderInv o := by
  unfold OrderInv
  rw [h1, h2]
  simp

/-- C7: `executed_at` is set iff status is `"filled"`, for orders as
produced by `create_order` and as left by any `submit_order` call and
any `_process_order_worker` run on a not-yet-executed order (one with
`executed_at = None` and a status other than `"filled"`, as every
queued order is). -/
theorem executed_at_iff_filled :
    (∀ oid u b s side q p now,
      OrderInv (create_order oid u b s side q p now)) ∧
    (∀ limits env st order mode, order.executed_at = none →
      order.status ≠ "filled" →
      OrderInv (submit_order limits env st order mode).order) ∧
    (∀ st order outcome now posId, order.executed_at = none →
      order.status ≠ "filled" →
      OrderInv (process_order_worker st order outcome now posId).1) := by
  refine ⟨?_, ?_, ?_⟩
  · intro oid u b s side q p now
    apply orderInv_of_none_ne
    · rfl
    · show ("new" : String) ≠ "filled"
      decide
  · intro limits env st order mode hexec hstat
    simp only [submit_order]
    split
    · apply orderInv_of_none_ne
      · exact hexec
      · show ("rejected" : String) ≠ "filled"
        decide
    · split
      · exact orderInv_some_filled _ env.now rfl rfl
      · exact orderInv_of_none_ne _ hexec hstat
  · intro st order outcome now posId hexec hstat
    cases outcome with
    | raises exc => exact orderInv_of_none_ne _ hexec hstat
    | result res =>
      simp only [process_order_worker]
      split
      · apply orderInv_of_none_ne
        · exact hexec
        · show ("failed" : String) ≠ "filled"
          decide
      · split
        · exact orderInv_of_none_ne _ hexec hstat
        · exact orderInv_some_filled _ now rfl rfl

/-- C7 witness: the invariant holds for the order left by a concrete
paper submit (filled, `executed_at` set). -/
theorem executed_at_iff_filled_witness :
    OrderInv (submit_order defaultLimits envW emptyState orderW "paper").order :=
  executed_at_iff_filled.2.1 defaultLimits envW emptyState orderW "paper"
    rfl (by decide)

/-- C1 (the code at the failing input): when the broker call raises
during `_process_order_worker`, the order is left with its
pre-processing status `"new"` — neither `"filled"` nor `"failed"` —
and nothing is persisted to the orders table, even though an
`order_failed` event and an audit entry are recorded.  The claim (and
the spec's "always results in exactly one terminal status") says the
order should end terminal; the `except` branch simply never sets or
persists a status. -/
theorem worker_exception_not_terminal :
    (process_order_worker emptyState orderW (.raises "boom") 7 "p9").1.status =
      "new" ∧
    (process_order_worker emptyState orderW (.raises "boom") 7 "p9").1.status ≠
      "filled" ∧
    (process_order_worker emptyState orderW (.raises "boom") 7 "p9").1.status ≠
      "failed" ∧
    ("order_failed", "boom") ∈
      (process_order_worker emptyState orderW (.raises "boom") 7 "p9").2.events ∧
    ("error", "Order processing exception") ∈
      (process_order_worker emptyState orderW (.raises "boom") 7 "p9").2.auditLog ∧
    (process_order_worker emptyState orderW (.raises "boom") 7 "p9").2.ordersTable =
      emptyState.ordersTable := by
  refine ⟨rfl, by decide, by decide, ?_, ?_, rfl⟩
  · simp [process_order_worker, emptyState]
  · simp [process_order_worker, emptyState]

end NeuraTrading
